import Mathlib

/-!
Shallow embedding of the package-assistant core (src/src/package/): the
command executor, the RPM changelog reader, the changelog directory walker
and the two backend update parsers, together with proofs of the spec's
claims about them.  Side-effecting boundaries (subprocess invocation, the
RPM archive library, the XML tokenizer) are modelled as explicit
environment records whose fields give the outcome of each external call.
-/

deriving instance DecidableEq for Except

namespace PackageAssistant

/-- A changelog entry of an RPM package: unix timestamp (u64) plus
description, as returned by `package.metadata.get_changelog_entries()`. -/
structure ChangelogEntry where
  timestamp : Nat
  description : String
  deriving DecidableEq

/-- The declared metadata of a package archive that the reader consumes:
`get_name()` and `get_changelog_entries()`. -/
structure RpmPackage where
  name : String
  changelogs : List ChangelogEntry
  deriving DecidableEq

/-- Mirror of `PackageChangelogResult` (package_manager.rs). -/
structure PackageChangelogResult where
  name : String
  changelogs : List String
  deriving DecidableEq

/-- Mirror of `ChangelogQuery` (package_manager.rs). -/
structure ChangelogQuery where
  name : Option String
  deriving DecidableEq

/-- Mirror of `PackageUpdateItem` (package_manager.rs). -/
structure PackageUpdateItem where
  name : String
  old_version : Option String
  new_version : Option String
  deriving DecidableEq

/-- Mirror of `Error` (error.rs); external error payloads are modelled as
strings (their content is never inspected by the core). -/
inductive Error where
  | IOError (msg : String)
  | RPMError (msg : String)
  | Utf8StringError
  | ParseIntError
  | XMLError (msg : String)
  | RegexError (msg : String)
  | NoChangelogsForPackage
  | NoChangelogsInDirectory
  | PackageNameDoesNotMatch (name : String) (query : String)
  | InvalidRPMResponse
  | RPMCommandError (stderr : String)
  | UnsupportedPackageManager
  | UnkownCachedPackagePath
  | EmptyCommand
  | DownloadError (msg : String)
  | UpdateError (msg : String)
  | ZypperError (msg : String)
  | DnfError (msg : String)
  deriving DecidableEq

/-- Mirror of `std::process::Output`: exit-status success flag plus the two
captured byte streams; `none` models bytes that are not valid UTF-8 (so that
`String::from_utf8` fails on them). -/
structure Output where
  success : Bool
  stdout : Option String
  stderr : Option String
  deriving DecidableEq

/-- Mirror of the fields of `PackageConfig` (storage/config.rs) consumed by
the package core. -/
structure PackageConfig where
  download_command : String
  update_command : String
  noconfirm_update_command : String
  cached_package_path : Option String

/-- Outcome of `Command::new("sh").args(["-c", cmd]).output()` for each
possible command string: an io error or a captured `Output`. -/
structure ShellEnv where
  shell : String → Except String Output

/-- Outcome of `Command::new("sh").args(["-c", cmd]).spawn()` followed by
`child.wait()`: the outer `Except` is the spawn result, the inner one the
wait result carrying the child's exit-status code. -/
structure InteractiveEnv where
  spawn : String → Except String (Except String Int)

/-- Outcome of `Command::new("rpm").args(["-q", name, "--qf",
"%CHANGELOGTIME"]).output()` for each package name. -/
structure RpmEnv where
  rpmQuery : String → Except String Output

/-- Mirror of `process_cmd_output` (utilities.rs:50-59): on failed exit
status with an error constructor present, decode stderr and wrap it;
otherwise decode and return stdout. -/
def process_cmd_output (output : Output) (get_error : Option (String → Error)) :
    Except Error String :=
  match get_error, output.success with
  | some f, false =>
    match output.stderr with
    | none => Except.error Error.Utf8StringError
    | some stderr => Except.error (f stderr)
  | _, _ =>
    match output.stdout with
    | none => Except.error Error.Utf8StringError
    | some stdout => Except.ok stdout

/-- Mirror of `run_shell_command` (utilities.rs:19-33). -/
def run_shell_command (env : ShellEnv) (command : String) (elevate_privileges : Bool)
    (get_error : Option (String → Error)) : Except Error Unit :=
  if command = "" then Except.error Error.EmptyCommand
  else
    let modified_command := if elevate_privileges then "pkexec " ++ command else command
    match env.shell modified_command with
    | Except.error e => Except.error (Error.IOError e)
    | Except.ok output =>
      match process_cmd_output output get_error with
      | Except.error e => Except.error e
      | Except.ok _ => Except.ok ()

/-- Mirror of `run_interactive_shell_command` (utilities.rs:35-48): spawn
the shell command, wait for it, and return `Ok(())`; the `?` operators
propagate only spawn/wait io errors, the exit status of the child is
discarded. -/
def run_interactive_shell_command (env : InteractiveEnv) (command : String)
    (elevate_privileges : Bool) : Except Error Unit :=
  if command = "" then Except.error Error.EmptyCommand
  else
    let modified_command := if elevate_privileges then "pkexec " ++ command else command
    match env.spawn modified_command with
    | Except.error e => Except.error (Error.IOError e)
    | Except.ok wait_result =>
      match wait_result with
      | Except.error e => Except.error (Error.IOError e)
      | Except.ok _exit_status => Except.ok ()

/-- Mirror of the default `do_update` (package_manager.rs:114-121). -/
def do_update (config : PackageConfig) (interactive : Bool)
    (ienv : InteractiveEnv) (senv : ShellEnv) : Except Error Unit :=
  if interactive then
    run_interactive_shell_command ienv config.update_command true
  else
    run_shell_command senv config.noconfirm_update_command true (some Error.UpdateError)

/-- Mirror of `matches_query` (utilities.rs:61-63): Rust's
`name.starts_with(query)`. -/
def matches_query (name : String) (query : String) : Bool :=
  query.data.isPrefixOf name.data

/-- Rust `str::lines().next()`: `none` on the empty string, otherwise the
text before the first newline, with a single trailing carriage return
stripped. -/
def stripTrailingCR (cs : List Char) : List Char :=
  match cs.getLast? with
  | some c => if c = '\r' then cs.dropLast else cs
  | none => cs

/-- First line of a command's stdout, per Rust `str::lines`. -/
def firstLine (s : String) : Option String :=
  match s.data with
  | [] => none
  | c :: rest => some (String.mk (stripTrailingCR ((c :: rest).takeWhile (fun ch => ch ≠ '\n'))))

/-- Rust `str::parse::<u64>()`: an optional leading plus sign, then a
non-empty run of ASCII digits whose value fits in 64 bits. -/
def rustParseU64 (s : String) : Option Nat :=
  let cs := match s.data with
    | '+' :: rest => rest
    | other => other
  if cs.isEmpty then none
  else if cs.all Char.isDigit then
    let v := cs.foldl (fun a c => a * 10 + (c.toNat - 48)) 0
    if v < 2 ^ 64 then some v else none
  else none

/-- Mirror of `get_installed_pkg_timestamp` (utilities.rs:87-98). -/
def get_installed_pkg_timestamp (env : RpmEnv) (name : String) : Except Error Nat :=
  match env.rpmQuery name with
  | Except.error e => Except.error (Error.IOError e)
  | Except.ok output =>
    match process_cmd_output output (some Error.RPMCommandError) with
    | Except.error e => Except.error e
    | Except.ok stdout =>
      match firstLine stdout with
      | some first_line =>
        match rustParseU64 first_line with
        | some n => Except.ok n
        | none => Except.error Error.ParseIntError
      | none => Except.error Error.InvalidRPMResponse

/-- The novelty threshold actually used by the changelog filter:
`get_installed_pkg_timestamp(name).unwrap_or(0)` (utilities.rs:77). -/
def rpmThreshold (env : RpmEnv) (name : String) : Nat :=
  (get_installed_pkg_timestamp env name).toOption.getD 0

/-- The filter-and-project step of utilities.rs:78-82: keep entries whose
timestamp is strictly above the threshold, in order, and take their
descriptions. -/
def filterChangelogs (threshold : Nat) (entries : List ChangelogEntry) : List String :=
  (entries.filter (fun c => threshold < c.timestamp)).map (fun c => c.description)

/-- Mirror of `get_rpm_changelogs_result` (utilities.rs:67-85); the `file`
argument is the outcome of `rpm::Package::open` plus metadata reads, with
`none` modelling a file that is not a valid RPM archive. -/
def get_rpm_changelogs_result (env : RpmEnv) (query : ChangelogQuery)
    (file : Option RpmPackage) : Except Error PackageChangelogResult :=
  match file with
  | none => Except.error (Error.RPMError "failed to open package")
  | some package =>
    match query.name with
    | some query_name =>
      if matches_query package.name query_name then
        Except.ok { name := package.name
                    changelogs := filterChangelogs (rpmThreshold env package.name) package.changelogs }
      else
        Except.error (Error.PackageNameDoesNotMatch package.name query_name)
    | none =>
      Except.ok { name := package.name
                  changelogs := filterChangelogs (rpmThreshold env package.name) package.changelogs }

/-- The per-package output string built by `get_package_changelogs_string`
(package_manager.rs:91-95): the name banner, then each surviving entry
preceded by a newline. -/
def package_changelog_string (name : String) (changelogs : List String) : String :=
  "==== " ++ name ++ " ====" ++ String.join (changelogs.map (fun c => "\n" ++ c))

/-- Mirror of `get_package_changelogs_string` (package_manager.rs:85-99). -/
def get_package_changelogs_string (env : RpmEnv) (query : ChangelogQuery)
    (file : Option RpmPackage) : Except Error String :=
  match get_rpm_changelogs_result env query file with
  | Except.error e => Except.error e
  | Except.ok r =>
    if r.changelogs.isEmpty then Except.error Error.NoChangelogsForPackage
    else Except.ok (package_changelog_string r.name r.changelogs)

/-- Joining with a separator: the accumulation loop of
`get_dir_changelogs` (package_manager.rs:70-76), which pushes the separator
before every element except the first. -/
def joinSep (sep : String) : List String → String
  | [] => ""
  | [s] => s
  | s :: rest => s ++ sep ++ joinSep sep rest

/-- The aggregation step of `get_dir_changelogs` (package_manager.rs:63-79):
keep the successful per-entry strings (`filter(is_ok).map(unwrap)`), fail
with `NoChangelogsInDirectory` when none survive, otherwise join them with a
blank line. -/
def dirAggregate (results : List (Except Error String)) : Except Error String :=
  let changelogs := results.filterMap Except.toOption
  if changelogs.isEmpty then Except.error Error.NoChangelogsInDirectory
  else Except.ok (joinSep "\n\n" changelogs)

mutual
/-- One filesystem entry seen by the walker: a regular file (with the
archive metadata the reader would obtain from it), an entry whose
metadata/io read fails, or a subdirectory. -/
inductive FsTree : Type where
  | file : Option RpmPackage → FsTree
  | ioFail : String → FsTree
  | dir : FsForest → FsTree

/-- The listing of a directory, in traversal order. -/
inductive FsForest : Type where
  | nil : FsForest
  | cons : FsTree → FsForest → FsForest
end

mutual
/-- The per-entry branch of `get_dir_changelogs` (package_manager.rs:53-62):
recurse into directories, read single files, turn io failures into errors. -/
def walkEntry (env : RpmEnv) (query : ChangelogQuery) : FsTree → Except Error String
  | FsTree.file f => get_package_changelogs_string env query f
  | FsTree.ioFail e => Except.error (Error.IOError e)
  | FsTree.dir entries => dirAggregate (walkForest env query entries)

/-- The `subpaths.map(...)` traversal over a directory listing. -/
def walkForest (env : RpmEnv) (query : ChangelogQuery) : FsForest → List (Except Error String)
  | FsForest.nil => []
  | FsForest.cons t rest => walkEntry env query t :: walkForest env query rest
end

/-- Mirror of `get_dir_changelogs` (package_manager.rs:51-80) on a directory
whose listing is `entries`. -/
def get_dir_changelogs (env : RpmEnv) (query : ChangelogQuery) (entries : FsForest) :
    Except Error String :=
  dirAggregate (walkForest env query entries)

/-- The survivors of a directory traversal, in traversal order. -/
def survivors (env : RpmEnv) (query : ChangelogQuery) (entries : FsForest) : List String :=
  (walkForest env query entries).filterMap Except.toOption

/-- Whether the query accepts a declared package name (the
`if let Some(query_name) = query.name` guard of utilities.rs:71-75). -/
def queryAccepts (query : ChangelogQuery) (name : String) : Bool :=
  match query.name with
  | some qn => matches_query name qn
  | none => true

/-- A file on which the single-file read succeeds: a valid archive whose
name passes the query and whose filtered changelog list is non-empty. -/
def goodFile (env : RpmEnv) (query : ChangelogQuery) (file : Option RpmPackage) : Bool :=
  match file with
  | none => false
  | some pkg =>
    queryAccepts query pkg.name
      && !(filterChangelogs (rpmThreshold env pkg.name) pkg.changelogs).isEmpty

mutual
/-- The tree contains, as a regular file, exactly the archive `p`, and the
read of that file succeeds. -/
def treeHasPkg (env : RpmEnv) (query : ChangelogQuery) (p : RpmPackage) : FsTree → Bool
  | FsTree.file f => decide (f = some p) && goodFile env query f
  | FsTree.ioFail _ => false
  | FsTree.dir entries => forestHasPkg env query p entries

/-- Some tree of the forest contains the successfully read archive `p`. -/
def forestHasPkg (env : RpmEnv) (query : ChangelogQuery) (p : RpmPackage) : FsForest → Bool
  | FsForest.nil => false
  | FsForest.cons t rest => treeHasPkg env query p t || forestHasPkg env query p rest
end

mutual
/-- Every file read anywhere in the tree fails (invalid archive, query
mismatch, empty filtered changelog list, or io failure). -/
def treeAllFail (env : RpmEnv) (query : ChangelogQuery) : FsTree → Bool
  | FsTree.file f => !goodFile env query f
  | FsTree.ioFail _ => true
  | FsTree.dir entries => forestAllFail env query entries

/-- Every file read anywhere in the forest fails. -/
def forestAllFail (env : RpmEnv) (query : ChangelogQuery) : FsForest → Bool
  | FsForest.nil => true
  | FsForest.cons t rest => treeAllFail env query t && forestAllFail env query rest
end

/-- Substring occurrence, at the level of the underlying character lists. -/
def strContains (s sub : String) : Prop :=
  ∃ l r, l ++ sub.data ++ r = s.data

/-!  Zypper backend (zypper.rs).  The XML tokenization performed by the
`quick_xml` reader is external; the walker over its event stream is the
code under verification, so the embedding works on a list of events. -/

/-- An event produced by the XML reader; the zypper loop inspects only
start-elements and lets everything else fall through.  Under the reader's
default configuration (`Reader::from_str`, `expand_empty_elements` off) a
self-closing element such as `<update .../>` is delivered as an
`emptyElem` event, not as a start event. -/
inductive XmlEvent where
  | start (name : String) (attrs : List (String × String))
  | emptyElem (name : String) (attrs : List (String × String))
  | endElem (name : String)
  | text (s : String)
  deriving DecidableEq

/-- The attribute loop of zypper.rs:38-52: fold over the attributes,
recording the last `name`, `edition` and `edition-old` values seen. -/
def zypperReadAttrs (attrs : List (String × String)) :
    String × Option String × Option String :=
  attrs.foldl (fun acc kv =>
    match kv.1 with
    | "name" => (kv.2, acc.2.1, acc.2.2)
    | "edition" => (acc.1, some kv.2, acc.2.2)
    | "edition-old" => (acc.1, acc.2.1, some kv.2)
    | _ => acc) ("", none, none)

/-- The item, if any, contributed by one XML event: a start-element named
`update` whose extracted `name` attribute is non-empty, with `edition` as
the new version and `edition-old` as the old one (zypper.rs:37-57). -/
def updateItemOfEvent (e : XmlEvent) : Option PackageUpdateItem :=
  match e with
  | XmlEvent.start n attrs =>
    if n = "update" then
      let na := zypperReadAttrs attrs
      if na.1 = "" then none
      else some { name := na.1, old_version := na.2.2, new_version := na.2.1 }
    else none
  | _ => none

/-- The event loop of zypper.rs:35-61, accumulating items by push. -/
def zypperParseEvents (events : List XmlEvent) : List PackageUpdateItem :=
  events.foldl (fun items e =>
    match updateItemOfEvent e with
    | some item => items ++ [item]
    | none => items) []

/-- External outcomes consumed by `ZypperManager::check_update`: the zypper
subprocess invocation and the XML tokenizer applied to its stdout. -/
structure ZypperEnv where
  zypperCmd : Except String Output
  xmlEvents : String → List XmlEvent

/-- Mirror of `ZypperManager::check_update` (zypper.rs:27-64). -/
def zypper_check_update (env : ZypperEnv) : Except Error (List PackageUpdateItem) :=
  match env.zypperCmd with
  | Except.error e => Except.error (Error.IOError e)
  | Except.ok output =>
    match process_cmd_output output (some Error.ZypperError) with
    | Except.error e => Except.error e
    | Except.ok stdout => Except.ok (zypperParseEvents (env.xmlEvents stdout))

/-!  Dnf backend (dnf.rs).  The line pattern applied to stdout is
(multi-line) regular expression matching of the whole-line pattern with two
runs of non-whitespace, two runs of whitespace, and the literal `updates`;
greedy token runs make the match deterministic, so it is embedded as a
maximal-munch scanner per line. -/

/-- The whitespace class of the regex escape used in the dnf pattern. -/
def rsWhitespace (c : Char) : Bool :=
  c = ' ' || c = '\t' || c = '\n' || c = '\r' ||
    c = Char.ofNat 11 || c = Char.ofNat 12

/-- Match of one stdout line against the dnf update pattern: a run of
non-whitespace (the name), whitespace, a run of non-whitespace (the
version), whitespace, then exactly the literal `updates`. -/
def parseDnfLine (cs : List Char) : Option (String × String) :=
  let t1 := cs.takeWhile (fun c => !rsWhitespace c)
  let r1 := cs.dropWhile (fun c => !rsWhitespace c)
  if t1.isEmpty then none
  else
    let s1 := r1.takeWhile rsWhitespace
    let r2 := r1.dropWhile rsWhitespace
    if s1.isEmpty then none
    else
      let t2 := r2.takeWhile (fun c => !rsWhitespace c)
      let r3 := r2.dropWhile (fun c => !rsWhitespace c)
      if t2.isEmpty then none
      else
        let s2 := r3.takeWhile rsWhitespace
        let r4 := r3.dropWhile rsWhitespace
        if s2.isEmpty then none
        else if r4 = "updates".data then some (String.mk t1, String.mk t2)
        else none

/-- Split a character list at newline characters (the line segmentation the
multi-line anchors of the pattern induce on stdout). -/
def splitOnNl : List Char → List (List Char)
  | [] => [[]]
  | c :: rest =>
    if c = '\n' then [] :: splitOnNl rest
    else
      match splitOnNl rest with
      | [] => [[c]]
      | l :: ls => (c :: l) :: ls

/-- The matches of the dnf update pattern over the captured stdout, one
item per matching line, with the old version always absent (dnf.rs:34-38). -/
def dnfParseStdout (stdout : String) : List PackageUpdateItem :=
  (splitOnNl stdout.data).filterMap (fun line =>
    (parseDnfLine line).map (fun nv =>
      { name := nv.1, new_version := some nv.2, old_version := none }))

/-- The pattern literal passed to `Regex::new` at dnf.rs:32. -/
def dnfPattern : String := "(?gm)^(\\S+)\\s+(\\S+)\\s+updates$"

/-- Outcome of `Regex::new(dnfPattern)`: the pattern opens with the inline
flag group `(?gm)`, but `g` is not a flag of the Rust regex crate (its
inline flags are `i`, `m`, `s`, `U`, `u`, `x` and `R` across all published
versions), so construction of this compile-time constant pattern
deterministically fails with an unrecognized-flag error. -/
def regexNewDnfPattern : Except String Unit := Except.error "unrecognized flag"

/-- External outcome consumed by `DnfManger::check_update`: the dnf
subprocess invocation.  The pattern construction is not an environment
choice — it is `Regex::new` applied to the constant `dnfPattern`, embedded
as `regexNewDnfPattern`. -/
structure DnfEnv where
  dnfCmd : Except String Output

/-- Mirror of `DnfManger::check_update` (dnf.rs:24-44): an erring command
result collapses to an empty item list, while `Regex::new(...)?` inside
the success arm propagates its failure; since `regexNewDnfPattern` always
fails, the item-producing branch is unreachable. -/
def dnf_check_update (env : DnfEnv) : Except Error (List PackageUpdateItem) :=
  match env.dnfCmd with
  | Except.error e => Except.error (Error.IOError e)
  | Except.ok output =>
    match process_cmd_output output (some Error.DnfError) with
    | Except.ok stdout =>
      match regexNewDnfPattern with
      | Except.error e => Except.error (Error.RegexError e)
      | Except.ok _ => Except.ok (dnfParseStdout stdout)
    | Except.error _ => Except.ok []

/-!  Concrete fixtures used to instantiate the theorems. -/

/-- An environment in which the `rpm -q` lookup fails with an io error. -/
def cexEnvNoRpm : RpmEnv := ⟨fun _ => Except.error "rpm unavailable"⟩

/-- An environment in which `rpm -q` reports a latest installed changelog
timestamp of 10. -/
def cexEnvTs10 : RpmEnv := ⟨fun _ => Except.ok ⟨true, some "10", some ""⟩⟩

/-- An environment in which `rpm -q` reports a timestamp of 1. -/
def cexEnvTs1 : RpmEnv := ⟨fun _ => Except.ok ⟨true, some "1", some ""⟩⟩

/-- An environment in which `rpm -q` exits non-zero. -/
def cexEnvRpmExitFail : RpmEnv := ⟨fun _ => Except.ok ⟨false, some "", some "not installed"⟩⟩

def cexPkgOldNew : RpmPackage := ⟨"a", [⟨5, "old entry"⟩, ⟨50, "new entry"⟩]⟩

def cexPkgGenesis : RpmPackage := ⟨"a", [⟨0, "genesis entry"⟩]⟩

def pkgT150 : RpmPackage := ⟨"a", [⟨150, "entry at 150"⟩]⟩

def pkgAtThreshold : RpmPackage := ⟨"abc", [⟨10, "at the threshold"⟩, ⟨11, "above the threshold"⟩]⟩

/-- A directory holding one readable matching archive, one malformed file,
and a subdirectory whose only archive has no changelog entries. -/
def demoForest : FsForest :=
  FsForest.cons (FsTree.file (some pkgT150))
    (FsForest.cons (FsTree.file none)
      (FsForest.cons (FsTree.dir (FsForest.cons (FsTree.file (some ⟨"b", []⟩)) FsForest.nil))
        FsForest.nil))

/-- A directory in which every entry fails: a malformed file, an io
failure, and a subdirectory whose only archive has no surviving entries. -/
def allFailForest : FsForest :=
  FsForest.cons (FsTree.file none)
    (FsForest.cons (FsTree.ioFail "permission denied")
      (FsForest.cons (FsTree.dir (FsForest.cons (FsTree.file (some ⟨"b", []⟩)) FsForest.nil))
        FsForest.nil))

def cexShellEnv : ShellEnv := ⟨fun _ => Except.error "not invoked"⟩

/-- An interactive environment whose spawned child exits with status 1. -/
def cexInteractiveExit1 : InteractiveEnv := ⟨fun _ => Except.ok (Except.ok 1)⟩

def cexUpdateConfig : PackageConfig := ⟨"pm download", "pm update", "pm update -y", none⟩

/-- A dnf environment whose command succeeds with one stdout line that
matches the update pattern. -/
def cexDnfOkEnv : DnfEnv := ⟨Except.ok ⟨true, some "bash.x86_64        5.2-1    updates", some ""⟩⟩

/-- A dnf environment whose command exits non-zero. -/
def cexDnfFailEnv : DnfEnv := ⟨Except.ok ⟨false, some "", some "dnf failed"⟩⟩

/-- A zypper update-list document whose single `update` element is
self-closing, as zypper emits it. -/
def zypperDemoXml : String :=
  "<update-status><update-list><update name=\"pkg\" edition=\"2.0\" edition-old=\"1.0\"/></update-list></update-status>"

/-- A zypper environment whose command succeeds with `zypperDemoXml` and
whose tokenizer delivers the events the default-configured reader produces
for it: the self-closing `update` element arrives as an `emptyElem` event. -/
def zypperDemoEnv : ZypperEnv :=
  ⟨Except.ok ⟨true, some zypperDemoXml, some ""⟩,
   fun _ =>
     [XmlEvent.start "update-status" [], XmlEvent.start "update-list" [],
      XmlEvent.emptyElem "update" [("name", "pkg"), ("edition", "2.0"), ("edition-old", "1.0")],
      XmlEvent.endElem "update-list", XmlEvent.endElem "update-status"]⟩

/-!  Helper lemmas. -/

theorem data_append (a b : String) : (a ++ b).data = a.data ++ b.data := rfl

theorem strContains_refl (s : String) : strContains s s :=
  ⟨[], [], by simp⟩

theorem strContains_trans {a b c : String} (h1 : strContains a b) (h2 : strContains b c) :
    strContains a c := by
  obtain ⟨l1, r1, e1⟩ := h1
  obtain ⟨l2, r2, e2⟩ := h2
  exact ⟨l1 ++ l2, r2 ++ r1, by rw [← e1, ← e2]; simp [List.append_assoc]⟩

theorem mem_joinSep (sep : String) :
    ∀ (l : List String) (x : String), x ∈ l → strContains (joinSep sep l) x := by
  intro l
  induction l with
  | nil => intro x hx; cases hx
  | cons a t ih =>
    intro x hx
    cases t with
    | nil =>
      have hxa : x = a := by simpa using hx
      subst hxa
      exact strContains_refl x
    | cons b t2 =>
      rcases List.mem_cons.mp hx with h | h
      · subst h
        exact ⟨[], (sep ++ joinSep sep (b :: t2)).data, by simp [joinSep, data_append]⟩
      · exact strContains_trans
          ⟨(a ++ sep).data, [], by simp [joinSep, data_append]⟩ (ih x h)

theorem isPrefixOf_eq_true_iff :
    ∀ l1 l2 : List Char, l1.isPrefixOf l2 = true ↔ ∃ t, l1 ++ t = l2 := by
  intro l1
  induction l1 with
  | nil => intro l2; simp [List.isPrefixOf]
  | cons a as ih =>
    intro l2
    cases l2 with
    | nil => simp [List.isPrefixOf]
    | cons b bs =>
      simp only [List.isPrefixOf, Bool.and_eq_true, beq_iff_eq, ih bs, List.cons_append,
        List.cons.injEq]
      constructor
      · rintro ⟨hab, t, ht⟩
        exact ⟨t, hab, ht⟩
      · rintro ⟨t, hab, ht⟩
        exact ⟨hab, t, ht⟩

theorem goodFile_true_ok (env : RpmEnv) (q : ChangelogQuery) (p : RpmPackage)
    (h : goodFile env q (some p) = true) :
    get_package_changelogs_string env q (some p) =
      Except.ok (package_changelog_string p.name
        (filterChangelogs (rpmThreshold env p.name) p.changelogs)) := by
  simp only [goodFile, Bool.and_eq_true, Bool.not_eq_true'] at h
  obtain ⟨hq, he⟩ := h
  cases hqn : q.name with
  | none =>
    simp [get_package_changelogs_string, get_rpm_changelogs_result, hqn, he]
  | some qn =>
    have hm : matches_query p.name qn = true := by
      simpa [queryAccepts, hqn] using hq
    simp [get_package_changelogs_string, get_rpm_changelogs_result, hqn, hm, he]

theorem goodFile_false_none (env : RpmEnv) (q : ChangelogQuery) :
    ∀ f, goodFile env q f = false → (get_package_changelogs_string env q f).toOption = none := by
  intro f h
  match f with
  | none =>
    simp [get_package_changelogs_string, get_rpm_changelogs_result, Except.toOption]
  | some pkg =>
    simp only [goodFile, Bool.and_eq_false_iff, Bool.not_eq_false'] at h
    cases hqn : q.name with
    | none =>
      have he : (filterChangelogs (rpmThreshold env pkg.name) pkg.changelogs).isEmpty = true := by
        rcases h with h | h
        · simp [queryAccepts, hqn] at h
        · exact h
      simp [get_package_changelogs_string, get_rpm_changelogs_result, hqn, he, Except.toOption]
    | some qn =>
      cases hm : matches_query pkg.name qn with
      | false =>
        simp [get_package_changelogs_string, get_rpm_changelogs_result, hqn, hm, Except.toOption]
      | true =>
        have he : (filterChangelogs (rpmThreshold env pkg.name) pkg.changelogs).isEmpty = true := by
          rcases h with h | h
          · simp [queryAccepts, hqn, hm] at h
          · exact h
        simp [get_package_changelogs_string, get_rpm_changelogs_result, hqn, hm, he,
          Except.toOption]

theorem walkForest_allFail (env : RpmEnv) (q : ChangelogQuery) :
    ∀ fo : FsForest, forestAllFail env q fo = true →
      (walkForest env q fo).filterMap Except.toOption = [] := by
  refine @FsForest.rec
    (fun t => treeAllFail env q t = true → (walkEntry env q t).toOption = none)
    (fun fo => forestAllFail env q fo = true →
      (walkForest env q fo).filterMap Except.toOption = [])
    ?_ ?_ ?_ ?_ ?_
  · intro f h
    simp only [treeAllFail, Bool.not_eq_true'] at h
    simpa [walkEntry] using goodFile_false_none env q f h
  · intro e _h
    simp [walkEntry, Except.toOption]
  · intro entries ih h
    simp only [treeAllFail] at h
    simp [walkEntry, dirAggregate, ih h, Except.toOption]
  · intro _h
    simp [walkForest]
  · intro t rest ih1 ih2 h
    simp only [forestAllFail, Bool.and_eq_true] at h
    simp [walkForest, List.filterMap_cons, ih1 h.1, ih2 h.2]

theorem walkForest_hasPkg (env : RpmEnv) (q : ChangelogQuery) (p : RpmPackage) :
    ∀ fo : FsForest, forestHasPkg env q p fo = true →
      ∃ s, s ∈ (walkForest env q fo).filterMap Except.toOption ∧
        strContains s (package_changelog_string p.name
          (filterChangelogs (rpmThreshold env p.name) p.changelogs)) := by
  refine @FsForest.rec
    (fun t => treeHasPkg env q p t = true →
      ∃ s, walkEntry env q t = Except.ok s ∧
        strContains s (package_changelog_string p.name
          (filterChangelogs (rpmThreshold env p.name) p.changelogs)))
    (fun fo => forestHasPkg env q p fo = true →
      ∃ s, s ∈ (walkForest env q fo).filterMap Except.toOption ∧
        strContains s (package_changelog_string p.name
          (filterChangelogs (rpmThreshold env p.name) p.changelogs)))
    ?_ ?_ ?_ ?_ ?_
  · intro f h
    simp only [treeHasPkg, Bool.and_eq_true, decide_eq_true_eq] at h
    obtain ⟨hf, hg⟩ := h
    subst hf
    exact ⟨_, by simpa [walkEntry] using goodFile_true_ok env q p hg, strContains_refl _⟩
  · intro e h
    simp [treeHasPkg] at h
  · intro entries ih h
    simp only [treeHasPkg] at h
    obtain ⟨s, hmem, hcont⟩ := ih h
    have hne : ((walkForest env q entries).filterMap Except.toOption).isEmpty = false := by
      cases hl : (walkForest env q entries).filterMap Except.toOption with
      | nil => rw [hl] at hmem; cases hmem
      | cons a l => simp
    refine ⟨joinSep "\n\n" ((walkForest env q entries).filterMap Except.toOption), ?_, ?_⟩
    · simp [walkEntry, dirAggregate, hne]
    · exact strContains_trans (mem_joinSep "\n\n" _ s hmem) hcont
  · intro h
    simp [forestHasPkg] at h
  · intro t rest ih1 ih2 h
    simp only [forestHasPkg, Bool.or_eq_true] at h
    rcases h with h | h
    · obtain ⟨s, heq, hcont⟩ := ih1 h
      exact ⟨s, by simp [walkForest, List.filterMap_cons, heq, Except.toOption], hcont⟩
    · obtain ⟨s, hmem, hcont⟩ := ih2 h
      refine ⟨s, ?_, hcont⟩
      rw [walkForest, List.filterMap_cons]
      cases (walkEntry env q t).toOption with
      | none => exact hmem
      | some a => exact List.mem_cons_of_mem a hmem

theorem zypper_loop_eq_filterMap :
    ∀ (events : List XmlEvent) (acc : List PackageUpdateItem),
      events.foldl (fun items e =>
        match updateItemOfEvent e with
        | some item => items ++ [item]
        | none => items) acc = acc ++ events.filterMap updateItemOfEvent := by
  intro events
  induction events with
  | nil => intro acc; simp
  | cons e rest ih =>
    intro acc
    cases h : updateItemOfEvent e <;>
      simp [List.foldl_cons, h, ih, List.filterMap_cons]

theorem takeWhile_append_sat (p : Char → Bool) :
    ∀ (l : List Char) (h : Char) (t : List Char), (∀ c ∈ l, p c = true) → p h = false →
      (l ++ h :: t).takeWhile p = l ∧ (l ++ h :: t).dropWhile p = h :: t := by
  intro l
  induction l with
  | nil =>
    intro h t _ hph
    simp [List.takeWhile_cons, List.dropWhile_cons, hph]
  | cons c cs ih =>
    intro h t hall hph
    have hc : p c = true := hall c (by simp)
    obtain ⟨h1, h2⟩ := ih h t (fun x hx => hall x (by simp [hx])) hph
    simp [List.takeWhile_cons, List.dropWhile_cons, hc, h1, h2]

theorem parseDnfLine_match (name ver sp1 sp2 : String)
    (hn : name.data ≠ []) (hv : ver.data ≠ [])
    (hs1 : sp1.data ≠ []) (hs2 : sp2.data ≠ [])
    (hnw : ∀ c ∈ name.data, rsWhitespace c = false)
    (hvw : ∀ c ∈ ver.data, rsWhitespace c = false)
    (hs1w : ∀ c ∈ sp1.data, rsWhitespace c = true)
    (hs2w : ∀ c ∈ sp2.data, rsWhitespace c = true) :
    parseDnfLine (name.data ++ sp1.data ++ ver.data ++ sp2.data ++ "updates".data) =
      some (name, ver) := by
  obtain ⟨a, s1t, hsp1⟩ := List.exists_cons_of_ne_nil hs1
  obtain ⟨b, vt, hvd⟩ := List.exists_cons_of_ne_nil hv
  obtain ⟨d, s2t, hsp2⟩ := List.exists_cons_of_ne_nil hs2
  have hnw' : ∀ c ∈ name.data, (!rsWhitespace c) = true := by
    intro c hc; simp [hnw c hc]
  have hvw' : ∀ c ∈ ver.data, (!rsWhitespace c) = true := by
    intro c hc; simp [hvw c hc]
  have ha : rsWhitespace a = true := hs1w a (by simp [hsp1])
  have hb : rsWhitespace b = true → False := by
    intro hcon
    have := hvw b (by simp [hvd])
    simp [this] at hcon
  have hd : rsWhitespace d = true := hs2w d (by simp [hsp2])
  have hu : rsWhitespace 'u' = false := by decide
  -- step 1: scan the name
  have step1 := takeWhile_append_sat (fun c => !rsWhitespace c) name.data a
    (s1t ++ ver.data ++ sp2.data ++ "updates".data) hnw' (by simp [ha])
  -- step 2: scan the first whitespace run
  have step2 := takeWhile_append_sat rsWhitespace (a :: s1t) b
    (vt ++ sp2.data ++ "updates".data)
    (by rw [← hsp1]; exact hs1w) (by cases hbv : rsWhitespace b with
      | true => exact absurd hbv hb
      | false => rfl)
  -- step 3: scan the version
  have step3 := takeWhile_append_sat (fun c => !rsWhitespace c) ver.data d
    (s2t ++ "updates".data) hvw' (by simp [hd])
  -- step 4: scan the second whitespace run and hit the literal
  have step4 := takeWhile_append_sat rsWhitespace (d :: s2t) 'u' "pdates".data
    (by rw [← hsp2]; exact hs2w) hu
  simp only [parseDnfLine]
  rw [show name.data ++ sp1.data ++ ver.data ++ sp2.data ++ "updates".data
      = name.data ++ a :: (s1t ++ ver.data ++ sp2.data ++ "updates".data) by
    rw [hsp1]; simp [List.append_assoc]]
  rw [step1.1, step1.2]
  rw [show a :: (s1t ++ ver.data ++ sp2.data ++ "updates".data)
      = (a :: s1t) ++ b :: (vt ++ sp2.data ++ "updates".data) by
    rw [hvd]; simp [List.append_assoc]]
  rw [step2.1, step2.2]
  rw [show b :: (vt ++ sp2.data ++ "updates".data)
      = ver.data ++ d :: (s2t ++ "updates".data) by
    rw [hvd, hsp2]; simp [List.append_assoc]]
  rw [step3.1, step3.2]
  rw [show d :: (s2t ++ "updates".data) = (d :: s2t) ++ 'u' :: "pdates".data by simp]
  rw [step4.1, step4.2]
  simp [List.isEmpty_eq_true, hn, hv, hsp1, hsp2]

/-!  Claim theorems. -/

/-- Claim C7: query matching is prefix-based and case-sensitive — the name
check passes exactly when the declared name starts with the filter string
("foo-libs" matches "foo" but not "Foo" or "oo"), and on a non-match the
reader returns `PackageNameDoesNotMatch` carrying the declared name and the
filter. -/
theorem matches_query_prefix_based :
    (∀ name q : String, matches_query name q = true ↔ ∃ t, q.data ++ t = name.data)
    ∧ matches_query "foo-libs" "foo" = true
    ∧ matches_query "foo-libs" "Foo" = false
    ∧ matches_query "foo-libs" "oo" = false
    ∧ (∀ (env : RpmEnv) (qn : String) (p : RpmPackage),
      matches_query p.name qn = false →
      get_rpm_changelogs_result env ⟨some qn⟩ (some p) =
        Except.error (Error.PackageNameDoesNotMatch p.name qn)) := by
  refine ⟨fun name q => isPrefixOf_eq_true_iff q.data name.data, by decide, by decide, by decide,
    ?_⟩
  intro env qn p h
  simp [get_rpm_changelogs_result, h]

theorem matches_query_prefix_based_witness :
    matches_query "bash" "zsh" = false ∧
    get_rpm_changelogs_result cexEnvNoRpm ⟨some "zsh"⟩ (some ⟨"bash", []⟩) =
      Except.error (Error.PackageNameDoesNotMatch "bash" "zsh") :=
  ⟨by decide,
    matches_query_prefix_based.2.2.2.2 cexEnvNoRpm "zsh" ⟨"bash", []⟩ (by decide)⟩

/-- Claim C8: both executor variants reject the empty command string with
`EmptyCommand` regardless of the elevation flag, and do so for every
subprocess environment — i.e. before any subprocess is spawned. -/
theorem empty_command_rejected :
    ∀ (senv : ShellEnv) (ienv : InteractiveEnv) (elevate : Bool)
      (g : Option (String → Error)),
      run_shell_command senv "" elevate g = Except.error Error.EmptyCommand ∧
      run_interactive_shell_command ienv "" elevate = Except.error Error.EmptyCommand := by
  intro senv ienv elevate g
  exact ⟨rfl, rfl⟩

/-- Claim C9 counterexample: the interactive executor used by
`do_update(interactive = true)` does **not** fail when the spawned process
exits with a nonzero status — `child.wait()?` discards the exit status, so
with a child exiting 1 the call still returns `Ok(())`. -/
theorem interactive_nonzero_exit_cex :
    cexInteractiveExit1.spawn "pkexec pm update" = Except.ok (Except.ok 1) ∧
    do_update cexUpdateConfig true cexInteractiveExit1 cexShellEnv = Except.ok () :=
  ⟨rfl, rfl⟩

/-- Claim C9 (amended): the interactive variant used by
`do_update(interactive = true)` spawns the configured update command with
elevation, waits for completion without capturing output, and returns
success for **every** exit status; only spawn/wait io failures surface (as
`IOError`). -/
theorem interactive_update_ignores_exit_status :
    (∀ (config : PackageConfig) (ienv : InteractiveEnv) (senv : ShellEnv) (code : Int),
      config.update_command ≠ "" →
      ienv.spawn ("pkexec " ++ config.update_command) = Except.ok (Except.ok code) →
      do_update config true ienv senv = Except.ok ())
    ∧ (∀ (config : PackageConfig) (ienv : InteractiveEnv) (senv : ShellEnv) (e : String),
      config.update_command ≠ "" →
      ienv.spawn ("pkexec " ++ config.update_command) = Except.error e →
      do_update config true ienv senv = Except.error (Error.IOError e)) := by
  constructor
  · intro config ienv senv code hne hspawn
    simp [do_update, run_interactive_shell_command, hne, hspawn]
  · intro config ienv senv e hne hspawn
    simp [do_update, run_interactive_shell_command, hne, hspawn]

theorem interactive_update_ignores_exit_status_witness :
    do_update cexUpdateConfig true cexInteractiveExit1 cexShellEnv = Except.ok () :=
  interactive_update_ignores_exit_status.1 cexUpdateConfig cexInteractiveExit1 cexShellEnv 1
    (by decide) rfl

/-- Claim C10: every failure of the installed-package timestamp lookup —
io error of the rpm command, nonzero exit, empty output, unparsable first
line — is not propagated by `get_rpm_changelogs_result`: `unwrap_or(0)`
falls back to threshold 0 and the read succeeds with every entry of
timestamp strictly greater than 0. -/
theorem timestamp_failure_fallback_zero :
    (∀ (env : RpmEnv) (p : RpmPackage) (e : Error),
      get_installed_pkg_timestamp env p.name = Except.error e →
      get_rpm_changelogs_result env ⟨none⟩ (some p) =
        Except.ok ⟨p.name, filterChangelogs 0 p.changelogs⟩)
    ∧ (∀ (env : RpmEnv) (name : String) (e : String),
      env.rpmQuery name = Except.error e →
      get_installed_pkg_timestamp env name = Except.error (Error.IOError e))
    ∧ (∀ (env : RpmEnv) (name : String) (so se : Option String),
      env.rpmQuery name = Except.ok ⟨false, so, se⟩ → se.isSome = true →
      ∃ s, se = some s ∧
        get_installed_pkg_timestamp env name = Except.error (Error.RPMCommandError s))
    ∧ (∀ (env : RpmEnv) (name : String) (se : Option String),
      env.rpmQuery name = Except.ok ⟨true, some "", se⟩ →
      get_installed_pkg_timestamp env name = Except.error Error.InvalidRPMResponse)
    ∧ (∀ (env : RpmEnv) (name : String) (se : Option String) (s l : String),
      env.rpmQuery name = Except.ok ⟨true, some s, se⟩ →
      firstLine s = some l → rustParseU64 l = none →
      get_installed_pkg_timestamp env name = Except.error Error.ParseIntError) := by
  refine ⟨?_, ?_, ?_, ?_, ?_⟩
  · intro env p e h
    have hts : rpmThreshold env p.name = 0 := by
      simp [rpmThreshold, h, Except.toOption]
    simp [get_rpm_changelogs_result, hts]
  · intro env name e h
    simp [get_installed_pkg_timestamp, h]
  · intro env name so se h hse
    obtain ⟨s, hs⟩ := Option.isSome_iff_exists.mp hse
    subst hs
    exact ⟨s, rfl, by simp [get_installed_pkg_timestamp, h, process_cmd_output]⟩
  · intro env name se h
    simp [get_installed_pkg_timestamp, h, process_cmd_output, firstLine]
  · intro env name se s l h hfl hparse
    simp [get_installed_pkg_timestamp, h, process_cmd_output, hfl, hparse]

theorem timestamp_failure_fallback_zero_witness :
    get_rpm_changelogs_result cexEnvNoRpm ⟨none⟩ (some pkgT150) =
      Except.ok ⟨pkgT150.name, filterChangelogs 0 pkgT150.changelogs⟩ :=
  timestamp_failure_fallback_zero.1 cexEnvNoRpm pkgT150 (Error.IOError "rpm unavailable") rfl

/-- Claim C3 counterexample: the sub-claim "with threshold = 0 every entry
is included" fails — with the threshold 0 (the rpm lookup fails, so
`unwrap_or(0)` applies) a package whose only changelog entry has timestamp
0 comes back with an *empty* changelog list, because the filter is strict. -/
theorem changelog_filter_zero_threshold_cex :
    rpmThreshold cexEnvNoRpm "a" = 0 ∧
    cexPkgGenesis.changelogs ≠ [] ∧
    get_rpm_changelogs_result cexEnvNoRpm ⟨none⟩ (some cexPkgGenesis) =
      Except.ok ⟨"a", []⟩ :=
  ⟨rfl, by decide, rfl⟩

/-- Claim C3 (amended): changelog filtering is strict and order-preserving —
exactly the entries with timestamp strictly greater than the threshold are
returned, in their original order (an entry equal to the threshold is
excluded), and with threshold = 0 exactly the entries with *nonzero*
timestamp are included. -/
theorem changelog_filter_strict (env : RpmEnv) (q : ChangelogQuery) (p : RpmPackage)
    (hq : queryAccepts q p.name = true) :
    ∃ r, get_rpm_changelogs_result env q (some p) = Except.ok r ∧
      r.changelogs = (p.changelogs.filter fun c =>
        rpmThreshold env p.name < c.timestamp).map (fun c => c.description) ∧
      (rpmThreshold env p.name = 0 →
        r.changelogs =
          (p.changelogs.filter fun c => 0 < c.timestamp).map (fun c => c.description)) := by
  cases hqn : q.name with
  | none =>
    refine ⟨⟨p.name, filterChangelogs (rpmThreshold env p.name) p.changelogs⟩,
      by simp [get_rpm_changelogs_result, hqn], rfl, ?_⟩
    intro h0
    rw [show (⟨p.name, filterChangelogs (rpmThreshold env p.name) p.changelogs⟩ :
      PackageChangelogResult).changelogs
        = filterChangelogs (rpmThreshold env p.name) p.changelogs from rfl, h0]
    rfl
  | some qn =>
    have hm : matches_query p.name qn = true := by simpa [queryAccepts, hqn] using hq
    refine ⟨⟨p.name, filterChangelogs (rpmThreshold env p.name) p.changelogs⟩,
      by simp [get_rpm_changelogs_result, hqn, hm], rfl, ?_⟩
    intro h0
    rw [show (⟨p.name, filterChangelogs (rpmThreshold env p.name) p.changelogs⟩ :
      PackageChangelogResult).changelogs
        = filterChangelogs (rpmThreshold env p.name) p.changelogs from rfl, h0]
    rfl

theorem changelog_filter_strict_witness :
    queryAccepts ⟨some "a"⟩ "abc" = true ∧
    ∃ r, get_rpm_changelogs_result cexEnvTs10 ⟨some "a"⟩ (some pkgAtThreshold) =
        Except.ok r ∧
      r.changelogs = (pkgAtThreshold.changelogs.filter fun c =>
        rpmThreshold cexEnvTs10 pkgAtThreshold.name < c.timestamp).map
          (fun c => c.description) ∧
      (rpmThreshold cexEnvTs10 pkgAtThreshold.name = 0 →
        r.changelogs = (pkgAtThreshold.changelogs.filter fun c =>
          0 < c.timestamp).map (fun c => c.description)) :=
  ⟨by decide, changelog_filter_strict cexEnvTs10 ⟨some "a"⟩ pkgAtThreshold (by decide)⟩

/-- Claim C4 counterexample: the novelty threshold is **not** a
caller-supplied parameter — two runs with identical caller arguments
(query and archive) but different outcomes of the core's own `rpm -q`
subprocess filter differently, so the threshold is computed by the core,
not consumed as a parameter (there is none in `ChangelogQuery`). -/
theorem threshold_not_caller_supplied_cex :
    get_rpm_changelogs_result cexEnvTs10 ⟨none⟩ (some cexPkgOldNew) =
      Except.ok ⟨"a", ["new entry"]⟩ ∧
    get_rpm_changelogs_result cexEnvTs1 ⟨none⟩ (some cexPkgOldNew) =
      Except.ok ⟨"a", ["old entry", "new entry"]⟩ ∧
    get_rpm_changelogs_result cexEnvTs10 ⟨none⟩ (some cexPkgOldNew) ≠
      get_rpm_changelogs_result cexEnvTs1 ⟨none⟩ (some cexPkgOldNew) :=
  ⟨rfl, rfl, by decide⟩

/-- Claim C4 (amended): the novelty threshold is computed by the core
itself on every archive read — it is the value parsed from the first
stdout line of the core's own `rpm -q <name> --qf %CHANGELOGTIME`
invocation (0 on any failure), and no caller-supplied timestamp exists. -/
theorem threshold_computed_by_core (env : RpmEnv) (p : RpmPackage) (se : Option String)
    (s l : String) (n : Nat)
    (h1 : env.rpmQuery p.name = Except.ok ⟨true, some s, se⟩)
    (h4 : firstLine s = some l) (h5 : rustParseU64 l = some n) :
    rpmThreshold env p.name = n ∧
    get_rpm_changelogs_result env ⟨none⟩ (some p) =
      Except.ok ⟨p.name,
        (p.changelogs.filter fun c => n < c.timestamp).map fun c => c.description⟩ := by
  have hts : get_installed_pkg_timestamp env p.name = Except.ok n := by
    simp [get_installed_pkg_timestamp, h1, process_cmd_output, h4, h5]
  have hth : rpmThreshold env p.name = n := by
    simp [rpmThreshold, hts, Except.toOption]
  refine ⟨hth, ?_⟩
  simp [get_rpm_changelogs_result, filterChangelogs, hth]

theorem threshold_computed_by_core_witness :
    rpmThreshold cexEnvTs10 cexPkgOldNew.name = 10 ∧
    get_rpm_changelogs_result cexEnvTs10 ⟨none⟩ (some cexPkgOldNew) =
      Except.ok ⟨cexPkgOldNew.name,
        (cexPkgOldNew.changelogs.filter fun c => 10 < c.timestamp).map
          fun c => c.description⟩ :=
  threshold_computed_by_core cexEnvTs10 cexPkgOldNew (some "") "10" "10" 10 rfl rfl
    (by decide)

/-- Claim C1: for every directory whose tree contains at least one archive
file that is a valid package, matches the query, and has at least one
changelog entry newer than the novelty threshold, `get_dir_changelogs`
returns a non-error string containing that package's `==== name ====`
banner followed by its surviving entry texts joined by newline; every
failing entry (malformed archive, name mismatch, empty filtered list,
failing sub-walk) is silently dropped, and the surviving per-entry strings
are concatenated separated by a blank line in traversal order. -/
theorem walker_returns_matching_package :
    (∀ (env : RpmEnv) (q : ChangelogQuery) (p : RpmPackage) (entries : FsForest),
      forestHasPkg env q p entries = true →
      ∃ s, get_dir_changelogs env q entries = Except.ok s ∧
        strContains s (package_changelog_string p.name
          (filterChangelogs (rpmThreshold env p.name) p.changelogs)))
    ∧ (∀ (env : RpmEnv) (q : ChangelogQuery) (entries : FsForest),
      survivors env q entries ≠ [] →
      get_dir_changelogs env q entries =
        Except.ok (joinSep "\n\n" (survivors env q entries))) := by
  constructor
  · intro env q p entries h
    obtain ⟨s, hmem, hcont⟩ := walkForest_hasPkg env q p entries h
    have hne : ((walkForest env q entries).filterMap Except.toOption).isEmpty = false := by
      cases hl : (walkForest env q entries).filterMap Except.toOption with
      | nil => rw [hl] at hmem; cases hmem
      | cons a l => simp
    refine ⟨joinSep "\n\n" ((walkForest env q entries).filterMap Except.toOption), ?_, ?_⟩
    · simp [get_dir_changelogs, dirAggregate, hne]
    · exact strContains_trans (mem_joinSep "\n\n" _ s hmem) hcont
  · intro env q entries h
    simp only [survivors] at h
    have hne : ((walkForest env q entries).filterMap Except.toOption).isEmpty = false := by
      cases hl : (walkForest env q entries).filterMap Except.toOption with
      | nil => exact absurd hl h
      | cons a l => simp
    simp [get_dir_changelogs, dirAggregate, survivors, hne]

theorem walker_returns_matching_package_witness :
    forestHasPkg cexEnvNoRpm ⟨none⟩ pkgT150 demoForest = true ∧
    ∃ s, get_dir_changelogs cexEnvNoRpm ⟨none⟩ demoForest = Except.ok s ∧
      strContains s (package_changelog_string pkgT150.name
        (filterChangelogs (rpmThreshold cexEnvNoRpm pkgT150.name) pkgT150.changelogs)) :=
  ⟨by decide,
    walker_returns_matching_package.1 cexEnvNoRpm ⟨none⟩ pkgT150 demoForest (by decide)⟩

/-- Claim C2: when no entry of the walk succeeds anywhere in the tree,
`get_dir_changelogs` returns `NoChangelogsInDirectory`; a sub-walk that
finds nothing fails the same way and its error is then dropped by the
parent (its contribution to the parent's survivor list is `none`), so the
error only reaches the original caller. -/
theorem walker_all_fail_no_changelogs :
    (∀ (env : RpmEnv) (q : ChangelogQuery) (entries : FsForest),
      forestAllFail env q entries = true →
      get_dir_changelogs env q entries = Except.error Error.NoChangelogsInDirectory)
    ∧ (∀ (env : RpmEnv) (q : ChangelogQuery) (entries : FsForest),
      forestAllFail env q entries = true →
      (walkEntry env q (FsTree.dir entries)).toOption = none) := by
  have key : ∀ (env : RpmEnv) (q : ChangelogQuery) (entries : FsForest),
      forestAllFail env q entries = true →
      dirAggregate (walkForest env q entries) =
        Except.error Error.NoChangelogsInDirectory := by
    intro env q entries h
    simp [dirAggregate, walkForest_allFail env q entries h]
  constructor
  · intro env q entries h
    simpa [get_dir_changelogs] using key env q entries h
  · intro env q entries h
    simp [walkEntry, key env q entries h, Except.toOption]

theorem walker_all_fail_no_changelogs_witness :
    forestAllFail cexEnvNoRpm ⟨none⟩ allFailForest = true ∧
    get_dir_changelogs cexEnvNoRpm ⟨none⟩ allFailForest =
      Except.error Error.NoChangelogsInDirectory :=
  ⟨by decide,
    walker_all_fail_no_changelogs.1 cexEnvNoRpm ⟨none⟩ allFailForest (by decide)⟩

/-- Claim C5 counterexample: the claim's quoted well-formed element
`<update name="pkg" edition="2.0" edition-old="1.0"/>` is self-closing, so
the default-configured reader (`Reader::from_str`, zypper.rs:32) delivers
it as an Empty event; the loop's catch-all arm (zypper.rs:59) ignores it,
and the parser yields **no** item for it — not the one item the claim
states. -/
theorem zypper_self_closing_update_cex :
    zypperParseEvents
        [XmlEvent.emptyElem "update"
          [("name", "pkg"), ("edition", "2.0"), ("edition-old", "1.0")]] = [] ∧
    zypperParseEvents
        [XmlEvent.emptyElem "update"
          [("name", "pkg"), ("edition", "2.0"), ("edition-old", "1.0")]] ≠
      [{ name := "pkg", old_version := some "1.0", new_version := some "2.0" }] :=
  ⟨rfl, by decide⟩

/-- Claim C5 (amended): the zypper update parser yields one item per
`update` **start** event whose extracted `name` attribute is non-empty, in
stream order, with the new version taken from `edition` and the old
version from `edition-old` (each absent attribute leaving the field
absent); a start event with those three attributes yields exactly one item
with old "1.0" and new "2.0", one with an empty name yields none, an
Empty event — the form in which the default-configured reader delivers a
self-closing `<update .../>` element — always yields none, and on a
successful command `check_update` returns exactly the items of the event
stream. -/
theorem zypper_update_parsing :
    (∀ events : List XmlEvent,
      zypperParseEvents events = events.filterMap updateItemOfEvent)
    ∧ (∀ n e eo : String,
      zypperReadAttrs [("name", n), ("edition", e), ("edition-old", eo)] =
        (n, some e, some eo))
    ∧ (∀ n : String, zypperReadAttrs [("name", n)] = (n, none, none))
    ∧ zypperParseEvents
        [XmlEvent.start "update"
          [("name", "pkg"), ("edition", "2.0"), ("edition-old", "1.0")]] =
        [{ name := "pkg", old_version := some "1.0", new_version := some "2.0" }]
    ∧ zypperParseEvents
        [XmlEvent.start "update"
          [("name", ""), ("edition", "2.0"), ("edition-old", "1.0")]] = []
    ∧ (∀ (n : String) (attrs : List (String × String)),
      updateItemOfEvent (XmlEvent.emptyElem n attrs) = none)
    ∧ (∀ (env : ZypperEnv) (se : Option String) (stdout : String),
      env.zypperCmd = Except.ok ⟨true, some stdout, se⟩ →
      zypper_check_update env = Except.ok (zypperParseEvents (env.xmlEvents stdout))) := by
  refine ⟨fun events => by simpa using zypper_loop_eq_filterMap events [],
    fun n e eo => rfl, fun n => rfl, by decide, by decide, fun n attrs => rfl, ?_⟩
  intro env se stdout h
  simp [zypper_check_update, h, process_cmd_output]

theorem zypper_update_parsing_witness :
    zypper_check_update zypperDemoEnv =
      Except.ok (zypperParseEvents (zypperDemoEnv.xmlEvents zypperDemoXml)) ∧
    zypper_check_update zypperDemoEnv = Except.ok [] :=
  ⟨zypper_update_parsing.2.2.2.2.2.2 zypperDemoEnv (some "") zypperDemoXml rfl, rfl⟩

/-- Claim C6 (code bug): the claimed behaviour — one item per stdout line
matching the update pattern, with command failure degrading to an empty
list — is the documented intent, but `Regex::new` of the constant pattern
`(?gm)^(\S+)\s+(\S+)\s+updates$` (dnf.rs:32) deterministically fails (`g`
is not a regex-crate flag), and its error escapes the lenient
`_ => Ok(vec![])` arm via `?`.  So whenever the dnf command succeeds —
even with a stdout line the pattern would match — `check_update` returns
`Err(RegexError)` and never yields a single item, while a non-zero exit
still collapses to `Ok([])`. -/
theorem dnf_check_update_regex_dead :
    (∀ (env : DnfEnv) (s : String) (se : Option String),
      env.dnfCmd = Except.ok ⟨true, some s, se⟩ →
      dnf_check_update env = Except.error (Error.RegexError "unrecognized flag"))
    ∧ (∀ (env : DnfEnv) (so se : Option String),
      env.dnfCmd = Except.ok ⟨false, so, se⟩ →
      dnf_check_update env = Except.ok [])
    ∧ dnf_check_update cexDnfOkEnv = Except.error (Error.RegexError "unrecognized flag")
    ∧ dnfParseStdout "bash.x86_64        5.2-1    updates" =
        [{ name := "bash.x86_64", old_version := none, new_version := some "5.2-1" }] := by
  refine ⟨?_, ?_, rfl, by decide⟩
  · intro env s se h
    simp [dnf_check_update, h, process_cmd_output, regexNewDnfPattern]
  · intro env so se h
    cases se <;> simp [dnf_check_update, h, process_cmd_output]

theorem dnf_check_update_regex_dead_witness :
    dnf_check_update cexDnfOkEnv = Except.error (Error.RegexError "unrecognized flag") ∧
    dnf_check_update cexDnfFailEnv = Except.ok [] :=
  ⟨dnf_check_update_regex_dead.1 cexDnfOkEnv "bash.x86_64        5.2-1    updates" (some "")
      rfl,
   dnf_check_update_regex_dead.2.1 cexDnfFailEnv (some "") (some "dnf failed") rfl⟩

end PackageAssistant
